import Mathlib

/-!
Verification of the semantic memory subsystem of the aiden-slack-bot
repository: the SQLite-backed vector store (`VectorStore`), the cosine
similarity computation, and the memory orchestrator (`MemoryService`).

JavaScript numbers are modelled as real numbers (ideal arithmetic),
strings as Lean `String`, optional values (`undefined`/`null`) as
`Option`, thrown exceptions as `Except`, and the SQLite table as an
in-memory list of rows together with a "last persisted to disk" copy
(the code keeps the whole database in memory via sql.js and writes the
exported image to a file in `saveDatabase`).  `Date.now` timestamps are
integers.  `Number.prototype.toFixed` and `Date.prototype.toISOString`,
which only produce display text, are taken as parameters of the
formatting function.
-/

namespace AidenBot

/-- JavaScript string truthiness on an optional string: `undefined`,
`null` and the empty string are falsy.  This models the `x || null`,
`x || undefined` and `...(x ⁣&& \x7b x \x7d)` coercions in the source,
which all collapse an empty string to an absent value. -/
def jsStr (o : Option String) : Option String :=
  match o with
  | some s => if s = "" then none else some s
  | none => none

/-- Model of the `MemoryEntry` interface from `src/types`:
`id?: number`, `timestamp: number`, `userInput`, `botResponse`,
`embedding: number[]`, optional `channelId`, `userId`, `userName`,
and optional `metadata: Record<string, any>` (modelled as an
association list of string key/value pairs). -/
structure MemoryEntry where
  id : Option Int
  timestamp : Int
  userInput : String
  botResponse : String
  embedding : List ℝ
  channelId : Option String
  userId : Option String
  userName : Option String
  metadata : Option (List (String × String))


/-- Model of the `MemorySearchResult` interface: a memory entry paired
with its similarity score. -/
structure MemorySearchResult where
  entry : MemoryEntry
  similarity : ℝ


/-- The configuration fields of `appConfig` consumed by the memory
subsystem. -/
structure AppConfig where
  similarityThreshold : ℝ
  maxMemoryResults : ℕ
  embeddingsProvider : String
  embeddingsModel : String
  databasePath : String

/-- A row of the `memories` table: the stored (persisted) shape of a
memory entry.  `embedding` and `metadata` are stored as JSON text in
the real database; JSON serialization of numeric arrays and string
maps round-trips, so they are modelled by their parsed values. -/
structure Row where
  id : Int
  timestamp : Int
  userInput : String
  botResponse : String
  embedding : List ℝ
  channelId : Option String
  userId : Option String
  userName : Option String
  metadata : Option (List (String × String))


/-- Errors thrown by `VectorStore` internals: the dimension-mismatch
exception of `calculateCosineSimilarity`. -/
inductive VectorStoreError where
  | dimensionMismatch
  deriving DecidableEq

/-- Inserts `x` into `l`, placing it before the first element `y` with
`le x y`.  This is the insertion step of a stable sort: an element is
moved past `y` only when `le x y` fails. -/
def insertLe {α : Type} (le : α → α → Prop) [DecidableRel le] (x : α) : List α → List α
  | [] => [x]
  | y :: ys => if le x y then x :: y :: ys else y :: insertLe le x ys

/-- Stable insertion sort with respect to the non-strict preorder `le`.
For a total `le` this computes the same permutation as JavaScript
`Array.prototype.sort` with a comparator consistent with `le`
(ECMAScript sort is stable: elements comparing equal keep their
original relative order). -/
def insertionSortLe {α : Type} (le : α → α → Prop) [DecidableRel le] : List α → List α
  | [] => []
  | x :: xs => insertLe le x (insertionSortLe le xs)

/-- Sum of squares of a vector, as accumulated by the magnitude loops
of `calculateCosineSimilarity`. -/
def sumSq (a : List ℝ) : ℝ :=
  (a.map fun x => x * x).sum

/-- Dot product of two vectors, as accumulated by the dot-product loop
of `calculateCosineSimilarity` (indexing over the common length). -/
def dotList (a b : List ℝ) : ℝ :=
  (List.zipWith (· * ·) a b).sum

namespace VectorStore

/-- Model of `VectorStore.calculateCosineSimilarity`: throws a
dimension-mismatch error when the vector lengths differ, returns `0`
when either magnitude is zero, and `dot / (|a| * |b|)` otherwise. -/
noncomputable def calculateCosineSimilarity (a b : List ℝ) : Except VectorStoreError ℝ :=
  if a.length ≠ b.length then
    .error .dimensionMismatch
  else
    let dotProduct := dotList a b
    let magnitudeA := Real.sqrt (sumSq a)
    let magnitudeB := Real.sqrt (sumSq b)
    if magnitudeA = 0 ∨ magnitudeB = 0 then .ok 0
    else .ok (dotProduct / (magnitudeA * magnitudeB))

/-- State of a `VectorStore`: the in-memory sql.js database (`rows`
in insertion order plus the next AUTOINCREMENT id) and the rows image
last successfully written to the database file by `saveDatabase`. -/
structure State where
  rows : List Row
  nextId : Int
  disk : List Row

/-- Conversion of a `MemoryEntry` to the bound parameters of the
`INSERT INTO memories` statement in `storeMemory`: the optional string
fields go through `x || null` (so an empty string is stored as NULL),
`embedding` is JSON-serialized, and `metadata` is JSON-serialized when
present. -/
def writeRow (e : MemoryEntry) (id : Int) : Row :=
  { id := id
    timestamp := e.timestamp
    userInput := e.userInput
    botResponse := e.botResponse
    embedding := e.embedding
    channelId := jsStr e.channelId
    userId := jsStr e.userId
    userName := jsStr e.userName
    metadata := e.metadata }

/-- Conversion of a row read back from the `memories` table to a
`MemoryEntry`, as done in both `searchSimilar` and
`getRecentMemories`: `id` is present, the optional string columns go
through `x || undefined`, and `embedding`/`metadata` are JSON-parsed. -/
def readEntry (r : Row) : MemoryEntry :=
  { id := some r.id
    timestamp := r.timestamp
    userInput := r.userInput
    botResponse := r.botResponse
    embedding := r.embedding
    channelId := jsStr r.channelId
    userId := jsStr r.userId
    userName := jsStr r.userName
    metadata := r.metadata }

/-- One optional-filter condition of the dynamically built query: a
falsy parameter (`undefined` or the empty string) adds no `WHERE`
clause, a truthy one requires column equality (`NULL = ?` is not
satisfied in SQL, so a NULL column never matches). -/
def condMatches (param : Option String) (stored : Option String) : Bool :=
  match param with
  | none => true
  | some c => if c = "" then true else stored == some c

/-- The combined `WHERE` filter on `channel_id` and `user_id` built by
`searchSimilar` and `getRecentMemories`. -/
def rowMatches (channelId userId : Option String) (r : Row) : Bool :=
  condMatches channelId r.channelId && condMatches userId r.userId

/-- The `ORDER BY timestamp DESC` clause, modelled as a stable sort of
the table rows by descending timestamp. -/
def sortByTimestampDesc (l : List Row) : List Row :=
  insertionSortLe (fun a b => b.timestamp ≤ a.timestamp) l

/-- Model of `VectorStore.saveDatabase`: exports the in-memory
database and writes it to the database file.  A write failure
(`writeOk = false`) is caught and only logged, so the method never
throws and on failure the file keeps its previous contents. -/
def saveDatabase (writeOk : Bool) (st : State) : State :=
  if writeOk then { st with disk := st.rows } else st

/-- Model of `VectorStore.storeMemory`: inserts the entry as a new row
with the next AUTOINCREMENT id, saves the database to disk, and
returns the input entry with the assigned id. -/
def storeMemory (writeOk : Bool) (st : State) (e : MemoryEntry) : MemoryEntry × State :=
  let row := writeRow e st.nextId
  let st1 : State := { st with rows := st.rows ++ [row], nextId := st.nextId + 1 }
  let st2 := saveDatabase writeOk st1
  ({ e with id := some st.nextId }, st2)

/-- The scoring loop of `searchSimilar`: for each row in order,
computes the cosine similarity to the query embedding (propagating
the dimension-mismatch exception, which aborts the whole loop) and
keeps the rows whose similarity reaches the configured threshold. -/
noncomputable def scoreRows (cfg : AppConfig) (queryEmbedding : List ℝ) :
    List Row → Except VectorStoreError (List MemorySearchResult)
  | [] => .ok []
  | r :: rs =>
    match calculateCosineSimilarity queryEmbedding r.embedding with
    | .error e => .error e
    | .ok similarity =>
      match scoreRows cfg queryEmbedding rs with
      | .error e => .error e
      | .ok rest =>
        if cfg.similarityThreshold ≤ similarity then
          .ok ({ entry := readEntry r, similarity := similarity } :: rest)
        else
          .ok rest

/-- The `results.sort((a, b) => b.similarity - a.similarity)` call: a
stable sort by similarity descending. -/
noncomputable def sortBySimilarityDesc (l : List MemorySearchResult) : List MemorySearchResult :=
  insertionSortLe (fun a b => b.similarity ≤ a.similarity) l

/-- Model of `VectorStore.searchSimilar`: selects the rows matching
the optional channel/user filter ordered by timestamp descending,
scores them against the query embedding with the threshold cut, sorts
by similarity descending and truncates to `limit`.  Any exception in
the loop (a dimension mismatch) is caught at this level and turns the
whole result into the empty list. -/
noncomputable def searchSimilar (cfg : AppConfig) (st : State) (queryEmbedding : List ℝ)
    (limit : ℕ) (channelId userId : Option String) : List MemorySearchResult :=
  let rows := sortByTimestampDesc (st.rows.filter (rowMatches channelId userId))
  match scoreRows cfg queryEmbedding rows with
  | .error _ => []
  | .ok results => (sortBySimilarityDesc results).take limit

/-- Model of `VectorStore.getRecentMemories`: rows matching the
optional filter, ordered by timestamp descending, truncated by the
SQL `LIMIT`, and converted back to entries. -/
def getRecentMemories (st : State) (limit : ℕ) (channelId userId : Option String) :
    List MemoryEntry :=
  ((sortByTimestampDesc (st.rows.filter (rowMatches channelId userId))).take limit).map readEntry

/-- Model of `VectorStore.getMemoryCount`: `SELECT COUNT(*)`. -/
def getMemoryCount (st : State) : ℕ :=
  st.rows.length

/-- Model of `VectorStore.deleteMemory`: deletes the row with the
given id, reports whether a row was removed, and saves the database
when it was. -/
def deleteMemory (writeOk : Bool) (st : State) (id : Int) : Bool × State :=
  let rows2 := st.rows.filter (fun r => r.id ≠ id)
  let deleted := rows2.length ≠ st.rows.length
  let st1 : State := { st with rows := rows2 }
  if deleted then (true, saveDatabase writeOk st1) else (false, st1)

/-- Model of `VectorStore.maintenance`: `VACUUM`/`ANALYZE` do not
change the table contents; the database is then saved. -/
def maintenance (writeOk : Bool) (st : State) : State :=
  saveDatabase writeOk st

end VectorStore

/-- Errors thrown by `MemoryService`: the not-initialized error of
`ensureInitialized`, and wrapped failures rethrown by the store/search
paths. -/
inductive MemServiceError where
  | notReady
  | failed (msg : String)
  deriving DecidableEq

namespace MemoryService

/-- The environment of a `MemoryService` call: the configuration, the
outcome of `initialize` (embeddings connection test plus lazy vector
store setup), the outcome of the embeddings provider per input text,
the `Date.now()` clock, and whether database file writes succeed. -/
structure Env where
  cfg : AppConfig
  initOutcome : Except String Unit
  embedOutcome : String → Except String (List ℝ)
  now : Int
  writeOk : Bool

/-- State of a `MemoryService`: the `initialized` flag and the vector
store. -/
structure MemState where
  isReady : Bool
  store : VectorStore.State

/-- The auto-initialization prologue shared by `storeMemory`,
`searchMemories` and `getEnhancedContext`: when the service is not yet
initialized, run `initialize`; on success the `initialized` flag is
set, on failure the exception propagates and the flag stays false. -/
def tryInit (env : Env) (ms : MemState) : Except String Unit × MemState :=
  if ms.isReady then (.ok (), ms)
  else
    match env.initOutcome with
    | .ok _ => (.ok (), { ms with isReady := true })
    | .error e => (.error e, ms)

/-- The entry construction of `MemoryService.storeMemory`: a
`userName` key is pulled out of the metadata (`metadata?.userName`),
the remaining metadata has the key deleted, the optional fields are
added through JS truthiness spreads (`...(x && ...)`), and the
metadata field is added only when some key remains. -/
def buildMemoryEntry (now : Int) (userInput botResponse : String) (embedding : List ℝ)
    (channelId userId : Option String) (metadata : Option (List (String × String))) :
    MemoryEntry :=
  let userName := metadata.bind (fun m => m.lookup "userName")
  let remainingMetadata := (metadata.getD []).filter (fun kv => kv.1 ≠ "userName")
  { id := none
    timestamp := now
    userInput := userInput
    botResponse := botResponse
    embedding := embedding
    channelId := jsStr channelId
    userId := jsStr userId
    userName := jsStr userName
    metadata := if remainingMetadata.length > 0 then some remainingMetadata else none }

/-- Model of `MemoryService.storeMemory`: auto-initializes, embeds the
user input, builds the entry and stores it; initialization or
embedding failures are rethrown wrapped. -/
def storeMemory (env : Env) (ms : MemState) (userInput botResponse : String)
    (channelId userId : Option String) (metadata : Option (List (String × String))) :
    Except MemServiceError MemoryEntry × MemState :=
  let (ir, ms1) := tryInit env ms
  match ir with
  | .error e => (.error (.failed e), ms1)
  | .ok _ =>
    match env.embedOutcome userInput with
    | .error e => (.error (.failed e), ms1)
    | .ok embedding =>
      let entry := buildMemoryEntry env.now userInput botResponse embedding
        channelId userId metadata
      let (stored, st2) := VectorStore.storeMemory env.writeOk ms1.store entry
      (.ok stored, { ms1 with store := st2 })

/-- Model of `MemoryService.searchMemories`: auto-initializes, embeds
the query and delegates to the store search; any failure is caught and
turned into the empty list instead of propagating. -/
noncomputable def searchMemories (env : Env) (ms : MemState) (query : String)
    (channelId userId : Option String) (limit : ℕ) :
    List MemorySearchResult × MemState :=
  let (ir, ms1) := tryInit env ms
  match ir with
  | .error _ => ([], ms1)
  | .ok _ =>
    match env.embedOutcome query with
    | .error _ => ([], ms1)
    | .ok queryEmbedding =>
      (VectorStore.searchSimilar env.cfg ms1.store queryEmbedding limit channelId userId, ms1)

/-- The speaker label of a formatted memory: the display name when it
is truthy, else the generic label. -/
def userLabel (e : MemoryEntry) : String :=
  match jsStr e.userName with
  | some n => n
  | none => "User"

/-- The fixed header prepended by `formatMemoriesForLLM` whenever at
least one memory is formatted. -/
def fmtHeader : String :=
  "\n--- RETRIEVED MEMORIES FOR EVALUATION ---\n" ++
  "IMPORTANT: These are past conversations that may or may not be accurate or current.\n" ++
  "You must evaluate them against your current knowledge and any new context provided.\n\n"

/-- The single-memory branch of `formatMemoriesForLLM`.  `fmtSim`
models `Number.prototype.toFixed(3)` and `fmtTime` models
`new Date(t).toISOString()`. -/
def singleBlock (fmtSim : ℝ → String) (fmtTime : Int → String) (r : MemorySearchResult) :
    String :=
  "Past conversation (similarity: " ++ fmtSim r.similarity ++ ", from " ++
    fmtTime r.entry.timestamp ++ "):\n" ++
  userLabel r.entry ++ ": " ++ r.entry.userInput ++ "\n" ++
  "Previous Assistant Response: " ++ r.entry.botResponse ++ "\n\n" ++
  "--- END RETRIEVED MEMORY ---\n\n" ++
  "EVALUATION INSTRUCTIONS:\n" ++
  "• Compare this past response with your current knowledge\n" ++
  "• Consider if information may have changed since this conversation\n" ++
  "• Determine if the previous answer is still accurate and complete\n" ++
  "• If the memory is outdated or incorrect, provide an updated answer\n" ++
  "• If the memory is accurate, you may reference it but add any new insights\n" ++
  "• Always prioritize accuracy over consistency with past responses\n\n"

/-- The numbered per-memory lines of the multi-memory branch
(`searchResults.forEach` with its index). -/
def memoryItems (fmtSim : ℝ → String) (fmtTime : Int → String) :
    ℕ → List MemorySearchResult → String
  | _, [] => ""
  | i, r :: rs =>
    "Memory " ++ toString (i + 1) ++ " (similarity: " ++ fmtSim r.similarity ++
      ", from " ++ fmtTime r.entry.timestamp ++ "):\n" ++
    userLabel r.entry ++ ": " ++ r.entry.userInput ++ "\n" ++
    "Previous Response: " ++ r.entry.botResponse ++ "\n\n" ++
    memoryItems fmtSim fmtTime (i + 1) rs

/-- The multi-memory branch of `formatMemoriesForLLM`. -/
def multiBlock (fmtSim : ℝ → String) (fmtTime : Int → String)
    (rs : List MemorySearchResult) : String :=
  "Found " ++ toString rs.length ++ " potentially relevant past conversations:\n\n" ++
  memoryItems fmtSim fmtTime 0 rs ++
  "--- END RETRIEVED MEMORIES ---\n\n" ++
  "EVALUATION AND SYNTHESIS INSTRUCTIONS:\n" ++
  "• Review each past conversation critically\n" ++
  "• Identify which information is still accurate and which may be outdated\n" ++
  "• Look for contradictions between memories or with your current knowledge\n" ++
  "• Synthesize the best information from multiple sources\n" ++
  "• Provide the most accurate and up-to-date answer possible\n" ++
  "• You may reference past conversations but are not bound by them\n" ++
  "• If memories contain errors, correct them in your response\n" ++
  "• Mention when you\x27re updating or correcting previous information\n\n"

/-- Model of `MemoryService.formatMemoriesForLLM`: empty input formats
to the empty string, one result to the single-memory framing, two or
more to the numbered multi-memory framing. -/
def formatMemoriesForLLM (fmtSim : ℝ → String) (fmtTime : Int → String) :
    List MemorySearchResult → String
  | [] => ""
  | [r] => fmtHeader ++ singleBlock fmtSim fmtTime r
  | rs => fmtHeader ++ multiBlock fmtSim fmtTime rs

/-- Model of `MemoryService.getEnhancedContext`: auto-initializes,
searches memories, formats them, and combines with the current query;
a truthy formatted block is prefixed before the question (with an
optional display-name lead-in), otherwise a truthy display name alone
prefixes the query; an initialization failure is caught and the
original query is returned unchanged. -/
noncomputable def getEnhancedContext (fmtSim : ℝ → String) (fmtTime : Int → String)
    (env : Env) (ms : MemState) (userQuery : String)
    (channelId userId userName : Option String) : String × MemState :=
  let (ir, ms1) := tryInit env ms
  match ir with
  | .error _ => (userQuery, ms1)
  | .ok _ =>
    let (memories, ms2) := searchMemories env ms1 userQuery channelId userId
      env.cfg.maxMemoryResults
    let memoryContext := formatMemoriesForLLM fmtSim fmtTime memories
    let out :=
      if memoryContext ≠ "" then
        memoryContext ++ "\nCurrent Question: " ++
          (match jsStr userName with
           | some n => n ++ " asks: "
           | none => "") ++ userQuery
      else
        match jsStr userName with
        | some n => n ++ " asks: " ++ userQuery
        | none => userQuery
    (out, ms2)

/-- The statistics record returned by `MemoryService.getStats`. -/
structure MemoryStats where
  totalMemories : ℕ
  embeddingsProvider : String
  embeddingsModel : String
  databasePath : String
  similarityThreshold : ℝ

/-- Model of `MemoryService.getStats`: requires the initialized state
(`ensureInitialized` throws otherwise, with no auto-initialization)
and reports the store count and configuration. -/
def getStats (env : Env) (ms : MemState) : Except MemServiceError MemoryStats × MemState :=
  if ms.isReady then
    (.ok { totalMemories := VectorStore.getMemoryCount ms.store
           embeddingsProvider := env.cfg.embeddingsProvider
           embeddingsModel := env.cfg.embeddingsModel
           databasePath := env.cfg.databasePath
           similarityThreshold := env.cfg.similarityThreshold }, ms)
  else (.error .notReady, ms)

/-- Model of `MemoryService.performMaintenance`: requires the
initialized state (no auto-initialization), then runs the store
maintenance. -/
def performMaintenance (env : Env) (ms : MemState) : Except MemServiceError Unit × MemState :=
  if ms.isReady then
    (.ok (), { ms with store := VectorStore.maintenance env.writeOk ms.store })
  else (.error .notReady, ms)

/-- Model of `MemoryService.deleteMemory`: requires the initialized
state (no auto-initialization), then deletes by id in the store. -/
def deleteMemory (env : Env) (ms : MemState) (id : Int) :
    Except MemServiceError Bool × MemState :=
  if ms.isReady then
    let (deleted, st2) := VectorStore.deleteMemory env.writeOk ms.store id
    (.ok deleted, { ms with store := st2 })
  else (.error .notReady, ms)

end MemoryService

/-! Concrete inputs used by counterexamples and witnesses. -/

/-- A concrete configuration used in the counterexamples: similarity
threshold 1, at most 5 results. -/
noncomputable def cfgA : AppConfig :=
  { similarityThreshold := 1
    maxMemoryResults := 5
    embeddingsProvider := "ollama"
    embeddingsModel := "nomic-embed-text"
    databasePath := "./data/memory.sqlite" }

/-- A stored row whose embedding has dimension 2, mismatching a
1-dimensional query. -/
noncomputable def rowMismatch : Row :=
  { id := 1
    timestamp := 10
    userInput := "a"
    botResponse := "b"
    embedding := [1, 0]
    channelId := none
    userId := none
    userName := none
    metadata := none }

/-- A stored row whose 1-dimensional embedding matches a
1-dimensional query perfectly. -/
noncomputable def rowGood : Row :=
  { id := 2
    timestamp := 5
    userInput := "c"
    botResponse := "d"
    embedding := [1]
    channelId := none
    userId := none
    userName := none
    metadata := none }

/-- A simple entry with no optional fields, used as concrete input. -/
noncomputable def entryBase : MemoryEntry :=
  { id := none
    timestamp := 1
    userInput := "hi"
    botResponse := "yo"
    embedding := [1]
    channelId := none
    userId := none
    userName := none
    metadata := none }

/-- An entry whose `channelId` is the empty string. -/
noncomputable def entryEmptyChannel : MemoryEntry :=
  { id := none
    timestamp := 5
    userInput := "u"
    botResponse := "b"
    embedding := [1]
    channelId := some ""
    userId := none
    userName := none
    metadata := none }

/-- An environment whose initialization (connection test) fails. -/
noncomputable def envFailInit : MemoryService.Env :=
  { cfg := cfgA
    initOutcome := .error "connection refused"
    embedOutcome := fun _ => .ok [1]
    now := 0
    writeOk := true }

/-- An environment where everything succeeds. -/
noncomputable def envOk : MemoryService.Env :=
  { cfg := cfgA
    initOutcome := .ok ()
    embedOutcome := fun _ => .ok [1]
    now := 9
    writeOk := true }

/-- A service state that has not been initialized, over an empty
store. -/
noncomputable def msEmpty : MemoryService.MemState :=
  { isReady := false, store := ⟨[], 1, []⟩ }

/-- A service state that is already initialized, over an empty
store. -/
noncomputable def msReady : MemoryService.MemState :=
  { isReady := true, store := ⟨[], 1, []⟩ }

/-- A concrete similarity formatter standing in for `toFixed(3)`. -/
noncomputable def fmtSim0 : ℝ → String := fun _ => "0.000"

/-- A concrete timestamp formatter standing in for `toISOString()`. -/
def fmtTime0 : Int → String := fun _ => "1970-01-01T00:00:00.000Z"

/-! Lemmas about the stable insertion sort. -/

theorem mem_insertLe {α : Type} (le : α → α → Prop) [DecidableRel le] (x a : α)
    (l : List α) : a ∈ insertLe le x l ↔ a = x ∨ a ∈ l := by
  induction l with
  | nil => simp [insertLe]
  | cons y ys ih =>
    simp only [insertLe]
    split
    · simp [List.mem_cons]
    · simp only [List.mem_cons, ih]
      tauto

theorem mem_insertionSortLe {α : Type} (le : α → α → Prop) [DecidableRel le] (a : α)
    (l : List α) : a ∈ insertionSortLe le l ↔ a ∈ l := by
  induction l with
  | nil => simp [insertionSortLe]
  | cons x xs ih =>
    simp only [insertionSortLe, mem_insertLe, List.mem_cons, ih]

theorem mem_sortByTimestampDesc (r : Row) (l : List Row) :
    r ∈ VectorStore.sortByTimestampDesc l ↔ r ∈ l := by
  unfold VectorStore.sortByTimestampDesc
  exact mem_insertionSortLe (fun a b : Row => b.timestamp ≤ a.timestamp) r l

theorem pairwise_insertLe {α : Type} {le : α → α → Prop} [DecidableRel le]
    {T : α → α → Prop}
    (htot : ∀ a b, le a b ∨ le b a) (htrans : ∀ a b c, le a b → le b c → le a c)
    {x : α} {l : List α}
    (hl : l.Pairwise (fun a b => le a b ∧ (le b a → T a b)))
    (hx : ∀ y ∈ l, T x y) :
    (insertLe le x l).Pairwise (fun a b => le a b ∧ (le b a → T a b)) := by
  induction l with
  | nil => simp [insertLe]
  | cons y ys ih =>
    rcases List.pairwise_cons.mp hl with ⟨hy, hys⟩
    simp only [insertLe]
    split
    · rename_i hxy
      refine List.pairwise_cons.mpr ⟨?_, hl⟩
      intro z hz
      rcases List.mem_cons.mp hz with rfl | hzys
      · exact ⟨hxy, fun _ => hx z (List.mem_cons_self z ys)⟩
      · exact ⟨htrans x y z hxy (hy z hzys).1, fun _ => hx z (List.mem_cons_of_mem y hzys)⟩
    · rename_i hxy
      refine List.pairwise_cons.mpr ⟨?_, ih hys (fun z hz => hx z (List.mem_cons_of_mem y hz))⟩
      intro z hz
      rcases (mem_insertLe le x z ys).mp hz with rfl | hzys
      · exact ⟨(htot z y).resolve_left hxy, fun h => absurd h hxy⟩
      · exact hy z hzys

theorem pairwise_insertionSortLe {α : Type} {le : α → α → Prop} [DecidableRel le]
    {T : α → α → Prop}
    (htot : ∀ a b, le a b ∨ le b a) (htrans : ∀ a b c, le a b → le b c → le a c)
    {l : List α} (hT : l.Pairwise T) :
    (insertionSortLe le l).Pairwise (fun a b => le a b ∧ (le b a → T a b)) := by
  induction l with
  | nil => simp [insertionSortLe]
  | cons x xs ih =>
    rcases List.pairwise_cons.mp hT with ⟨hx, hxs⟩
    exact pairwise_insertLe htot htrans (ih hxs)
      (fun y hy => hx y ((mem_insertionSortLe le y xs).mp hy))

theorem pairwise_trivial {α : Type} (l : List α) : l.Pairwise (fun _ _ => True) := by
  induction l with
  | nil => exact List.Pairwise.nil
  | cons x xs ih => exact List.pairwise_cons.mpr ⟨fun _ _ => trivial, ih⟩

/-! Lemmas about the scoring loop of `searchSimilar`. -/

theorem scoreRows_mem {cfg : AppConfig} {qe : List ℝ} :
    ∀ {rows : List Row} {res : List MemorySearchResult},
      VectorStore.scoreRows cfg qe rows = .ok res →
      ∀ x ∈ res, ∃ r ∈ rows, x.entry = VectorStore.readEntry r ∧
        cfg.similarityThreshold ≤ x.similarity := by
  intro rows
  induction rows with
  | nil =>
    intro res h x hx
    rw [VectorStore.scoreRows] at h
    cases h
    cases hx
  | cons r rs ih =>
    intro res h x hx
    simp only [VectorStore.scoreRows] at h
    cases hc : VectorStore.calculateCosineSimilarity qe r.embedding with
    | error e => simp only [hc] at h; exact Except.noConfusion h
    | ok s =>
      simp only [hc] at h
      cases hrest : VectorStore.scoreRows cfg qe rs with
      | error e => simp only [hrest] at h; exact Except.noConfusion h
      | ok rest =>
        simp only [hrest] at h
        split at h
        · cases h
          rcases List.mem_cons.mp hx with rfl | hxr
          · exact ⟨r, List.mem_cons_self r rs, rfl, by assumption⟩
          · rcases ih hrest x hxr with ⟨r2, hr2, he, hs⟩
            exact ⟨r2, List.mem_cons_of_mem r hr2, he, hs⟩
        · cases h
          rcases ih hrest x hx with ⟨r2, hr2, he, hs⟩
          exact ⟨r2, List.mem_cons_of_mem r hr2, he, hs⟩

theorem scoreRows_pairwise {cfg : AppConfig} {qe : List ℝ} :
    ∀ {rows : List Row} {res : List MemorySearchResult},
      rows.Pairwise (fun a b => b.timestamp ≤ a.timestamp) →
      VectorStore.scoreRows cfg qe rows = .ok res →
      res.Pairwise (fun x y => y.entry.timestamp ≤ x.entry.timestamp) := by
  intro rows
  induction rows with
  | nil =>
    intro res _ h
    rw [VectorStore.scoreRows] at h
    cases h
    exact List.Pairwise.nil
  | cons r rs ih =>
    intro res hp h
    rcases List.pairwise_cons.mp hp with ⟨hr, hrs⟩
    simp only [VectorStore.scoreRows] at h
    cases hc : VectorStore.calculateCosineSimilarity qe r.embedding with
    | error e => simp only [hc] at h; exact Except.noConfusion h
    | ok s =>
      simp only [hc] at h
      cases hrest : VectorStore.scoreRows cfg qe rs with
      | error e => simp only [hrest] at h; exact Except.noConfusion h
      | ok rest =>
        simp only [hrest] at h
        have hrestp := ih hrs hrest
        split at h
        · cases h
          refine List.pairwise_cons.mpr ⟨?_, hrestp⟩
          intro y hy
          rcases scoreRows_mem hrest y hy with ⟨r2, hr2, he, _⟩
          rw [he]
          exact hr r2 hr2
        · cases h
          exact hrestp

/-- C1. Every sequence returned by the store search is sorted by
similarity descending, and among results of equal similarity the one
with the larger (newer) timestamp comes first: the SQL query delivers
candidates in timestamp-descending order and the JavaScript stable
sort by similarity preserves that order among ties. -/
theorem searchSimilar_sorted_by_similarity_then_recency (cfg : AppConfig)
    (st : VectorStore.State) (qe : List ℝ) (limit : ℕ) (channelId userId : Option String) :
    (VectorStore.searchSimilar cfg st qe limit channelId userId).Pairwise
      (fun x y => y.similarity ≤ x.similarity ∧
        (x.similarity = y.similarity → y.entry.timestamp ≤ x.entry.timestamp)) := by
  simp only [VectorStore.searchSimilar]
  cases h : VectorStore.scoreRows cfg qe
      (VectorStore.sortByTimestampDesc
        (st.rows.filter (VectorStore.rowMatches channelId userId))) with
  | error e => exact List.Pairwise.nil
  | ok res =>
    have hrows : (VectorStore.sortByTimestampDesc
        (st.rows.filter (VectorStore.rowMatches channelId userId))).Pairwise
        (fun a b => b.timestamp ≤ a.timestamp) := by
      have := @pairwise_insertionSortLe Row
        (fun a b : Row => b.timestamp ≤ a.timestamp) _ (fun _ _ => True)
        (fun a b => le_total b.timestamp a.timestamp)
        (fun a b c hab hbc => le_trans hbc hab) _
        (pairwise_trivial (st.rows.filter (VectorStore.rowMatches channelId userId)))
      exact this.imp (fun h => h.1)
    have hres := scoreRows_pairwise hrows h
    have hsorted := @pairwise_insertionSortLe MemorySearchResult
      (fun a b : MemorySearchResult => b.similarity ≤ a.similarity) _
      (fun x y : MemorySearchResult => y.entry.timestamp ≤ x.entry.timestamp)
      (fun a b => le_total b.similarity a.similarity)
      (fun a b c hab hbc => le_trans hbc hab) _
      hres
    refine List.Pairwise.sublist (List.take_sublist limit _) (hsorted.imp ?_)
    intro x y hxy
    exact ⟨hxy.1, fun heq => hxy.2 (le_of_eq heq)⟩

/-- C2. Every result returned by the store search has similarity at
least the configured threshold, and at most `limit` results are
returned even when more candidates pass the threshold. -/
theorem searchSimilar_threshold_and_limit (cfg : AppConfig) (st : VectorStore.State)
    (qe : List ℝ) (limit : ℕ) (channelId userId : Option String) :
    (∀ x ∈ VectorStore.searchSimilar cfg st qe limit channelId userId,
        cfg.similarityThreshold ≤ x.similarity) ∧
      (VectorStore.searchSimilar cfg st qe limit channelId userId).length ≤ limit := by
  simp only [VectorStore.searchSimilar]
  cases h : VectorStore.scoreRows cfg qe
      (VectorStore.sortByTimestampDesc
        (st.rows.filter (VectorStore.rowMatches channelId userId))) with
  | error e =>
    exact ⟨fun x hx => absurd hx (List.not_mem_nil x), by simp⟩
  | ok res =>
    constructor
    · intro x hx
      have hx2 : x ∈ VectorStore.sortBySimilarityDesc res := List.mem_of_mem_take hx
      have hx3 : x ∈ res :=
        (mem_insertionSortLe (fun a b : MemorySearchResult => b.similarity ≤ a.similarity)
          x res).mp hx2
      rcases scoreRows_mem h x hx3 with ⟨_, _, _, hs⟩
      exact hs
    · exact List.length_take_le limit _

/-! Lemmas about the cosine-similarity arithmetic. -/

theorem sumSq_nonneg (a : List ℝ) : 0 ≤ sumSq a := by
  refine List.sum_nonneg ?_
  intro x hx
  rcases List.mem_map.mp hx with ⟨y, _, rfl⟩
  exact mul_self_nonneg y

theorem sumSq_pos {a : List ℝ} {x : ℝ} (hx : x ∈ a) (h0 : x ≠ 0) : 0 < sumSq a := by
  have h1 : 0 < x * x := mul_self_pos.mpr h0
  have h2 : x * x ≤ sumSq a := by
    refine List.single_le_sum ?_ (x * x) (List.mem_map_of_mem _ hx)
    intro y hy
    rcases List.mem_map.mp hy with ⟨z, _, rfl⟩
    exact mul_self_nonneg z
  exact lt_of_lt_of_le h1 h2

theorem dotList_self (a : List ℝ) : dotList a a = sumSq a := by
  unfold dotList sumSq
  rw [List.zipWith_same]

theorem dotList_neg (a : List ℝ) : dotList a (a.map fun x => -x) = -(sumSq a) := by
  induction a with
  | nil => simp [dotList, sumSq]
  | cons x xs ih =>
    simp only [dotList, sumSq, List.map_cons, List.zipWith_cons_cons, List.sum_cons] at *
    rw [ih]
    ring

theorem sumSq_neg (a : List ℝ) : sumSq (a.map fun x => -x) = sumSq a := by
  unfold sumSq
  rw [List.map_map]
  have h : ((fun x => x * x) ∘ fun x : ℝ => -x) = fun x : ℝ => x * x := by
    funext y
    simp [Function.comp]
  rw [h]

/-- C6. The cosine-similarity computation: for equal-length vectors it
returns `dot(a,b) / (|a| * |b|)` when both magnitudes are nonzero and
exactly `0` when either magnitude is zero; consequently a vector with
a nonzero component has similarity `1` with itself and `-1` with its
negation. -/
theorem calculateCosineSimilarity_spec (a b : List ℝ) (hlen : a.length = b.length) :
    (Real.sqrt (sumSq a) ≠ 0 → Real.sqrt (sumSq b) ≠ 0 →
      VectorStore.calculateCosineSimilarity a b =
        .ok (dotList a b / (Real.sqrt (sumSq a) * Real.sqrt (sumSq b)))) ∧
    (Real.sqrt (sumSq a) = 0 ∨ Real.sqrt (sumSq b) = 0 →
      VectorStore.calculateCosineSimilarity a b = .ok 0) ∧
    ((∃ x ∈ a, x ≠ 0) →
      VectorStore.calculateCosineSimilarity a a = .ok 1 ∧
      VectorStore.calculateCosineSimilarity a (a.map fun x => -x) = .ok (-1)) := by
  have hne : ¬ a.length ≠ b.length := not_not.mpr hlen
  refine ⟨?_, ?_, ?_⟩
  · intro ha hb
    simp only [VectorStore.calculateCosineSimilarity]
    rw [if_neg hne, if_neg (by push_neg; exact ⟨ha, hb⟩)]
  · intro hz
    simp only [VectorStore.calculateCosineSimilarity]
    rw [if_neg hne, if_pos hz]
  · rintro ⟨x, hxa, hx0⟩
    have hpos : 0 < sumSq a := sumSq_pos hxa hx0
    have hsq : 0 < Real.sqrt (sumSq a) := Real.sqrt_pos.mpr hpos
    have hsne : Real.sqrt (sumSq a) ≠ 0 := ne_of_gt hsq
    constructor
    · simp only [VectorStore.calculateCosineSimilarity]
      rw [if_neg (not_not.mpr rfl), if_neg (by push_neg; exact ⟨hsne, hsne⟩),
        dotList_self, Real.mul_self_sqrt (le_of_lt hpos), div_self (ne_of_gt hpos)]
    · have hlen2 : ¬ a.length ≠ (a.map fun x => -x).length := by
        rw [List.length_map]
        exact not_not.mpr rfl
      simp only [VectorStore.calculateCosineSimilarity]
      rw [if_neg hlen2, if_neg (by push_neg; rw [sumSq_neg]; exact ⟨hsne, hsne⟩),
        dotList_neg, sumSq_neg, Real.mul_self_sqrt (le_of_lt hpos), neg_div,
        div_self (ne_of_gt hpos)]

/-- Witness for C6 at a concrete input: the vector `[1]` compared with
itself has similarity exactly `1`. -/
theorem calculateCosineSimilarity_spec_witness :
    VectorStore.calculateCosineSimilarity [(1 : ℝ)] [(1 : ℝ)] = .ok 1 :=
  ((calculateCosineSimilarity_spec [(1 : ℝ)] [(1 : ℝ)] rfl).2.2
    ⟨1, by simp, one_ne_zero⟩).1

/-! Dimension-mismatch behaviour of the search. -/

theorem calc_error_of_mismatch {a b : List ℝ} (h : a.length ≠ b.length) :
    VectorStore.calculateCosineSimilarity a b = .error .dimensionMismatch := by
  simp only [VectorStore.calculateCosineSimilarity]
  rw [if_pos h]

theorem calc_ok_length {a b : List ℝ} {s : ℝ}
    (h : VectorStore.calculateCosineSimilarity a b = .ok s) : a.length = b.length := by
  by_contra hne
  rw [calc_error_of_mismatch hne] at h
  exact Except.noConfusion h

theorem scoreRows_error_of_mismatch {cfg : AppConfig} {qe : List ℝ} :
    ∀ {rows : List Row}, (∃ r ∈ rows, r.embedding.length ≠ qe.length) →
      ∃ e, VectorStore.scoreRows cfg qe rows = .error e := by
  intro rows
  induction rows with
  | nil => rintro ⟨r, hr, _⟩; cases hr
  | cons r rs ih =>
    rintro ⟨r0, hr0, hmis⟩
    cases hc : VectorStore.calculateCosineSimilarity qe r.embedding with
    | error e =>
      refine ⟨e, ?_⟩
      simp only [VectorStore.scoreRows, hc]
    | ok s =>
      have hr0rs : r0 ∈ rs := by
        rcases List.mem_cons.mp hr0 with rfl | h2
        · exact absurd (calc_ok_length hc).symm hmis
        · exact h2
      rcases ih ⟨r0, hr0rs, hmis⟩ with ⟨e, he⟩
      refine ⟨e, ?_⟩
      simp only [VectorStore.scoreRows, hc, he]

theorem calc_one : VectorStore.calculateCosineSimilarity [(1 : ℝ)] [(1 : ℝ)] = .ok 1 := by
  have h1 : sumSq [(1 : ℝ)] = 1 := by simp [sumSq]
  have h2 : dotList [(1 : ℝ)] [(1 : ℝ)] = 1 := by simp [dotList]
  simp only [VectorStore.calculateCosineSimilarity, h1, h2, Real.sqrt_one]
  norm_num

/-- C3 counterexample.  With the mismatched candidate present the
whole search returns the empty list, while the same search on the
store without the mismatched candidate returns the matching
candidate: the mismatching record is NOT merely skipped — its
exception aborts the whole scan, which the top-level catch turns into
an empty result, dropping every other matching candidate. -/
theorem searchSimilar_mismatch_counterexample :
    VectorStore.searchSimilar cfgA ⟨[rowMismatch, rowGood], 3, []⟩ [(1 : ℝ)] 5 none none
        = [] ∧
      VectorStore.searchSimilar cfgA ⟨[rowGood], 3, []⟩ [(1 : ℝ)] 5 none none
        = [{ entry := VectorStore.readEntry rowGood, similarity := 1 }] := by
  constructor
  · have hmem : rowMismatch ∈
        ([rowMismatch, rowGood].filter (VectorStore.rowMatches none none)) := by
      simp [VectorStore.rowMatches, VectorStore.condMatches]
    have hmem2 : rowMismatch ∈ VectorStore.sortByTimestampDesc
        ([rowMismatch, rowGood].filter (VectorStore.rowMatches none none)) :=
      (mem_insertionSortLe _ _ _).mpr hmem
    rcases @scoreRows_error_of_mismatch cfgA [(1 : ℝ)] _
        ⟨rowMismatch, hmem2, by simp [rowMismatch]⟩ with ⟨e, he⟩
    simp only [VectorStore.searchSimilar, he]
  · have hfilter : ([rowGood].filter (VectorStore.rowMatches none none)) = [rowGood] := by
      simp [VectorStore.rowMatches, VectorStore.condMatches]
    have hsort : VectorStore.sortByTimestampDesc [rowGood] = [rowGood] := rfl
    have hemb : rowGood.embedding = [(1 : ℝ)] := rfl
    have hscore : VectorStore.scoreRows cfgA [(1 : ℝ)] [rowGood] =
        .ok [{ entry := VectorStore.readEntry rowGood, similarity := 1 }] := by
      have hth : cfgA.similarityThreshold = 1 := rfl
      simp only [VectorStore.scoreRows, hemb, calc_one, hth]
      rw [if_pos (le_refl (1 : ℝ))]
    simp only [VectorStore.searchSimilar, hfilter, hsort, hscore,
      VectorStore.sortBySimilarityDesc, insertionSortLe, insertLe, List.take]

theorem searchSimilar_nil_of_mismatch {cfg : AppConfig} {st : VectorStore.State}
    {qe : List ℝ} (limit : ℕ) (channelId userId : Option String)
    (h : ∃ r ∈ st.rows.filter (VectorStore.rowMatches channelId userId),
      r.embedding.length ≠ qe.length) :
    VectorStore.searchSimilar cfg st qe limit channelId userId = [] := by
  rcases h with ⟨r, hr, hmis⟩
  rcases @scoreRows_error_of_mismatch cfg qe _
      ⟨r, (mem_sortByTimestampDesc r _).mpr hr, hmis⟩ with ⟨e, he⟩
  simp only [VectorStore.searchSimilar, he]

/-- C3 amended.  If any candidate matching the filter has a stored
embedding whose length differs from the query embedding, the whole
search returns the empty list (the per-candidate exception is caught
only at search level): no candidate at all is returned. -/
theorem searchSimilar_mismatch_empties_search (cfg : AppConfig) (st : VectorStore.State)
    (qe : List ℝ) (limit : ℕ) (channelId userId : Option String)
    (h : ∃ r ∈ st.rows.filter (VectorStore.rowMatches channelId userId),
      r.embedding.length ≠ qe.length) :
    VectorStore.searchSimilar cfg st qe limit channelId userId = [] :=
  searchSimilar_nil_of_mismatch limit channelId userId h

/-- Witness for the amended C3 at a concrete input: a store holding
only a 2-dimensional embedding searched with a 1-dimensional query
returns no results. -/
theorem searchSimilar_mismatch_empties_search_witness :
    VectorStore.searchSimilar cfgA ⟨[rowMismatch], 2, []⟩ [(1 : ℝ)] 5 none none = [] :=
  searchSimilar_mismatch_empties_search cfgA ⟨[rowMismatch], 2, []⟩ [(1 : ℝ)] 5 none none
    ⟨rowMismatch, by simp [VectorStore.rowMatches, VectorStore.condMatches],
      by simp [rowMismatch]⟩

/-! Persistence behaviour of `storeMemory`. -/

/-- C5 counterexample.  When the database file write fails,
`storeMemory` still returns the stored entry with its assigned id (no
`StorageWriteError` is raised — `saveDatabase` catches and only logs
the failure), and the in-memory table contains the new row while the
persisted image does not: the in-memory state is ahead of the last
successful persist. -/
theorem storeMemory_write_failure_counterexample :
    (VectorStore.storeMemory false ⟨[], 1, []⟩ entryBase).1.id = some 1 ∧
    (VectorStore.storeMemory false ⟨[], 1, []⟩ entryBase).2.rows =
      [VectorStore.writeRow entryBase 1] ∧
    (VectorStore.storeMemory false ⟨[], 1, []⟩ entryBase).2.disk = [] :=
  ⟨rfl, rfl, rfl⟩

/-- C5 amended.  `storeMemory` always appends the new row to the
in-memory table and returns the entry with its assigned id; it
attempts the disk write before returning, but a write failure is
swallowed (the method still returns normally) and the persisted image
stays at its previous contents, while a successful write persists the
new table. -/
theorem storeMemory_persistence (writeOk : Bool) (st : VectorStore.State)
    (e : MemoryEntry) :
    (VectorStore.storeMemory writeOk st e).1 = { e with id := some st.nextId } ∧
    (VectorStore.storeMemory writeOk st e).2.rows =
      st.rows ++ [VectorStore.writeRow e st.nextId] ∧
    (writeOk = false → (VectorStore.storeMemory writeOk st e).2.disk = st.disk) ∧
    (writeOk = true → (VectorStore.storeMemory writeOk st e).2.disk =
      st.rows ++ [VectorStore.writeRow e st.nextId]) := by
  refine ⟨rfl, ?_, ?_, ?_⟩
  · cases writeOk <;> rfl
  · intro h; subst h; rfl
  · intro h; subst h; rfl

/-- Witness for the amended C5 at a concrete input: with a failing
disk write on an initially empty store, the persisted image stays
empty. -/
theorem storeMemory_persistence_witness :
    (VectorStore.storeMemory false ⟨[], 1, []⟩ entryBase).2.disk = [] :=
  (storeMemory_persistence false ⟨[], 1, []⟩ entryBase).2.2.1 rfl

/-! Round-trip of `storeMemory` followed by `getRecentMemories`. -/

theorem jsStr_eq_self {o : Option String} (h : ∀ s, o = some s → s ≠ "") :
    jsStr o = o := by
  cases o with
  | none => rfl
  | some s =>
    show (if s = "" then none else some s) = some s
    rw [if_neg (h s rfl)]

theorem readEntry_writeRow (e : MemoryEntry) (n : Int)
    (hc : ∀ s, e.channelId = some s → s ≠ "")
    (hu : ∀ s, e.userId = some s → s ≠ "")
    (hn : ∀ s, e.userName = some s → s ≠ "") :
    VectorStore.readEntry (VectorStore.writeRow e n) = { e with id := some n } := by
  unfold VectorStore.readEntry VectorStore.writeRow
  rw [jsStr_eq_self hc, jsStr_eq_self hc, jsStr_eq_self hu, jsStr_eq_self hu,
    jsStr_eq_self hn, jsStr_eq_self hn]

theorem sortByTimestampDesc_append_max (l : List Row) (x : Row)
    (h : ∀ y ∈ l, y.timestamp < x.timestamp) :
    VectorStore.sortByTimestampDesc (l ++ [x]) = x :: VectorStore.sortByTimestampDesc l := by
  induction l with
  | nil => rfl
  | cons a l ih =>
    have hal : VectorStore.sortByTimestampDesc ((a :: l) ++ [x]) =
        insertLe (fun p q : Row => q.timestamp ≤ p.timestamp) a
          (VectorStore.sortByTimestampDesc (l ++ [x])) := rfl
    rw [hal, ih (fun y hy => h y (List.mem_cons_of_mem a hy))]
    unfold insertLe
    rw [if_neg (not_le.mpr (h a (List.mem_cons_self a l)))]
    rfl

/-- C9 counterexample.  Storing an entry whose `channelId` is the
empty string and reading it back with `getRecentMemories(limit=1)`
yields a record whose `channelId` is absent, not the empty string:
the `x || null` coercion at write time erases the field, so the
round-trip is not field-for-field equal for such a record. -/
theorem roundTrip_empty_string_counterexample :
    (VectorStore.getRecentMemories
        (VectorStore.storeMemory true ⟨[], 1, []⟩ entryEmptyChannel).2
        1 none none).map (fun e => e.channelId) = [none] ∧
      entryEmptyChannel.channelId = some "" := by
  constructor
  · rfl
  · rfl

/-- C9 amended.  Provided none of the optional string fields of the
entry is the empty string (a falsy value that the storage coercions
erase), and the entry's timestamp is strictly newer than every stored
row, `storeMemory` followed by `getRecentMemories(limit=1)` under a
filter matching the new row returns exactly the input record with the
newly assigned id. -/
theorem storeMemory_getRecent_roundTrip (writeOk : Bool) (st : VectorStore.State)
    (e : MemoryEntry) (channelId userId : Option String)
    (hc : ∀ s, e.channelId = some s → s ≠ "")
    (hu : ∀ s, e.userId = some s → s ≠ "")
    (hn : ∀ s, e.userName = some s → s ≠ "")
    (ht : ∀ r ∈ st.rows, r.timestamp < e.timestamp)
    (hf : VectorStore.rowMatches channelId userId (VectorStore.writeRow e st.nextId) = true) :
    VectorStore.getRecentMemories (VectorStore.storeMemory writeOk st e).2 1
        channelId userId = [{ e with id := some st.nextId }] := by
  have hrows : (VectorStore.storeMemory writeOk st e).2.rows =
      st.rows ++ [VectorStore.writeRow e st.nextId] := by
    cases writeOk <;> rfl
  unfold VectorStore.getRecentMemories
  rw [hrows, List.filter_append]
  have hf1 : List.filter (VectorStore.rowMatches channelId userId)
      [VectorStore.writeRow e st.nextId] = [VectorStore.writeRow e st.nextId] := by
    simp [List.filter, hf]
  rw [hf1, sortByTimestampDesc_append_max _ _ ?hmax]
  case hmax =>
    intro y hy
    exact ht y (List.mem_filter.mp hy).1
  simp only [List.take_succ_cons, List.take_zero, List.map_cons, List.map_nil]
  rw [readEntry_writeRow e st.nextId hc hu hn]

/-- Witness for the amended C9 at a concrete input: an entry with
nonempty optional fields stored in an empty store and read back under
the matching filter. -/
theorem storeMemory_getRecent_roundTrip_witness :
    VectorStore.getRecentMemories
        (VectorStore.storeMemory true ⟨[], 1, []⟩
          { id := none, timestamp := 7, userInput := "u", botResponse := "b",
            embedding := [1], channelId := some "c", userId := some "d",
            userName := some "n", metadata := some [("k", "v")] }).2
        1 (some "c") (some "d") =
      [{ id := some 1, timestamp := 7, userInput := "u", botResponse := "b",
         embedding := [1], channelId := some "c", userId := some "d",
         userName := some "n", metadata := some [("k", "v")] }] :=
  storeMemory_getRecent_roundTrip true ⟨[], 1, []⟩
    { id := none, timestamp := 7, userInput := "u", botResponse := "b",
      embedding := [1], channelId := some "c", userId := some "d",
      userName := some "n", metadata := some [("k", "v")] }
    (some "c") (some "d")
    (fun s hs => by cases hs; decide)
    (fun s hs => by cases hs; decide)
    (fun s hs => by cases hs; decide)
    (fun r hr => absurd hr (List.not_mem_nil r))
    rfl

/-! Lemmas about the orchestrator lifecycle. -/

theorem tryInit_eq_ok {env : MemoryService.Env} {ms : MemoryService.MemState}
    (h : ms.isReady = true ∨ env.initOutcome = Except.ok ()) :
    MemoryService.tryInit env ms = (Except.ok (), { ms with isReady := true }) := by
  cases ms with
  | mk r store =>
    rcases h with h | h
    · simp only [MemoryService.MemState.isReady] at h
      subst h
      rfl
    · by_cases hr : r
      · subst hr
        rfl
      · simp only [Bool.not_eq_true] at hr
        subst hr
        simp [MemoryService.tryInit, h]

theorem tryInit_eq_error {env : MemoryService.Env} {ms : MemoryService.MemState} {e : String}
    (h1 : ms.isReady = false) (h2 : env.initOutcome = Except.error e) :
    MemoryService.tryInit env ms = (Except.error e, ms) := by
  simp [MemoryService.tryInit, h1, h2]

/-- C4. `searchMemories` never propagates a failure: it returns the
empty list when self-initialization fails, when the embeddings
provider fails on the query, and when the store search degrades (a
candidate with mismatched embedding dimension empties the search);
the model's return type carries no error channel, mirroring the
catch-all in the source. -/
theorem searchMemories_empty_on_failure (env : MemoryService.Env)
    (ms : MemoryService.MemState) (query : String) (channelId userId : Option String)
    (limit : ℕ) :
    (∀ e, ms.isReady = false → env.initOutcome = Except.error e →
      (MemoryService.searchMemories env ms query channelId userId limit).1 = []) ∧
    (∀ e, env.embedOutcome query = Except.error e →
      (MemoryService.searchMemories env ms query channelId userId limit).1 = []) ∧
    (∀ qe, env.embedOutcome query = Except.ok qe →
      (∃ r ∈ ms.store.rows.filter (VectorStore.rowMatches channelId userId),
        r.embedding.length ≠ qe.length) →
      (MemoryService.searchMemories env ms query channelId userId limit).1 = []) := by
  refine ⟨?_, ?_, ?_⟩
  · intro e h1 h2
    simp only [MemoryService.searchMemories, tryInit_eq_error h1 h2]
  · intro e hemb
    by_cases hr : ms.isReady = true
    · simp only [MemoryService.searchMemories, tryInit_eq_ok (Or.inl hr), hemb]
    · cases hinit : env.initOutcome with
      | error e2 =>
        simp only [MemoryService.searchMemories,
          tryInit_eq_error (Bool.not_eq_true ms.isReady ▸ hr) hinit]
      | ok u =>
        cases u
        simp only [MemoryService.searchMemories, tryInit_eq_ok (Or.inr hinit), hemb]
  · intro qe hemb hmis
    have hsearch : VectorStore.searchSimilar env.cfg ms.store qe limit channelId userId
        = [] := searchSimilar_nil_of_mismatch limit channelId userId hmis
    by_cases hr : ms.isReady = true
    · simp only [MemoryService.searchMemories, tryInit_eq_ok (Or.inl hr), hemb, hsearch]
    · cases hinit : env.initOutcome with
      | error e2 =>
        simp only [MemoryService.searchMemories,
          tryInit_eq_error (Bool.not_eq_true ms.isReady ▸ hr) hinit]
      | ok u =>
        cases u
        simp only [MemoryService.searchMemories, tryInit_eq_ok (Or.inr hinit), hemb, hsearch]

/-- Witness for C4 at a concrete input: with a failing initialization
the search returns the empty list. -/
theorem searchMemories_empty_on_failure_witness :
    (MemoryService.searchMemories envFailInit msEmpty "q" none none 5).1 = [] :=
  (searchMemories_empty_on_failure envFailInit msEmpty "q" none none 5).1
    "connection refused" rfl rfl

/-- C8. When the service is not initialized, `deleteMemory`,
`getStats` and `performMaintenance` each fail with the
not-initialized error and leave the state untouched (no
auto-initialization), while the store and search paths do
auto-initialize: after either of them runs with a succeeding
initialization, the service is ready. -/
theorem maintenance_ops_require_ready (env : MemoryService.Env)
    (ms : MemoryService.MemState) (id : Int) (query userInput botResponse : String)
    (channelId userId : Option String) (limit : ℕ)
    (metadata : Option (List (String × String)))
    (h : ms.isReady = false) :
    MemoryService.deleteMemory env ms id = (Except.error .notReady, ms) ∧
    MemoryService.getStats env ms = (Except.error .notReady, ms) ∧
    MemoryService.performMaintenance env ms = (Except.error .notReady, ms) ∧
    (env.initOutcome = Except.ok () →
      (MemoryService.searchMemories env ms query channelId userId limit).2.isReady = true ∧
      (MemoryService.storeMemory env ms userInput botResponse channelId userId
        metadata).2.isReady = true) := by
  refine ⟨?_, ?_, ?_, ?_⟩
  · simp [MemoryService.deleteMemory, h]
  · simp [MemoryService.getStats, h]
  · simp [MemoryService.performMaintenance, h]
  · intro hok
    constructor
    · simp only [MemoryService.searchMemories, tryInit_eq_ok (Or.inr hok)]
      cases env.embedOutcome query <;> simp
    · simp only [MemoryService.storeMemory, tryInit_eq_ok (Or.inr hok)]
      cases env.embedOutcome userInput <;> simp

/-- Witness for C8 at a concrete input: deleting from an
uninitialized service fails with the not-initialized error and leaves
the state unchanged. -/
theorem maintenance_ops_require_ready_witness :
    MemoryService.deleteMemory envOk msEmpty 3 = (Except.error .notReady, msEmpty) :=
  (maintenance_ops_require_ready envOk msEmpty 3 "q" "u" "b" none none 5 none rfl).1

/-! Behaviour of `getEnhancedContext`. -/

theorem append_ne_empty_left {a b : String} (h : a.length ≠ 0) : a ++ b ≠ "" := by
  intro hc
  have h2 : (a ++ b).length = 0 := by rw [hc]; rfl
  rw [String.length_append] at h2
  omega

set_option maxRecDepth 4000 in
theorem formatMemoriesForLLM_ne_empty (fmtSim : ℝ → String) (fmtTime : Int → String)
    (rs : List MemorySearchResult) (h : rs ≠ []) :
    MemoryService.formatMemoriesForLLM fmtSim fmtTime rs ≠ "" := by
  match rs with
  | [] => exact absurd rfl h
  | [r] => exact append_ne_empty_left (by decide)
  | r1 :: r2 :: rest => exact append_ne_empty_left (by decide)

/-- C7. `getEnhancedContext` combines retrieval with the query: when
the formatted memory block is non-empty it is prefixed before the
current question, itself optionally prefixed with a truthy display
name; when no memories were found but a truthy display name is known,
only the name lead-in prefixes the query; with no memories and no
truthy name the query is returned as-is; and when the internal
self-initialization fails, the exception is caught and the query is
returned unchanged. -/
theorem getEnhancedContext_cases (fmtSim : ℝ → String) (fmtTime : Int → String)
    (env : MemoryService.Env) (ms : MemoryService.MemState) (userQuery : String)
    (channelId userId userName : Option String) :
    (∀ e, ms.isReady = false → env.initOutcome = Except.error e →
      (MemoryService.getEnhancedContext fmtSim fmtTime env ms userQuery channelId userId
        userName).1 = userQuery) ∧
    (ms.isReady = true ∨ env.initOutcome = Except.ok () →
      (MemoryService.formatMemoriesForLLM fmtSim fmtTime
          (MemoryService.searchMemories env { ms with isReady := true } userQuery
            channelId userId env.cfg.maxMemoryResults).1 ≠ "" →
        (MemoryService.getEnhancedContext fmtSim fmtTime env ms userQuery channelId userId
          userName).1 =
          MemoryService.formatMemoriesForLLM fmtSim fmtTime
            (MemoryService.searchMemories env { ms with isReady := true } userQuery
              channelId userId env.cfg.maxMemoryResults).1 ++
          "\nCurrent Question: " ++
          (match jsStr userName with
           | some n => n ++ " asks: "
           | none => "") ++ userQuery) ∧
      ((MemoryService.searchMemories env { ms with isReady := true } userQuery
          channelId userId env.cfg.maxMemoryResults).1 = [] →
        (∀ n, jsStr userName = some n →
          (MemoryService.getEnhancedContext fmtSim fmtTime env ms userQuery channelId
            userId userName).1 = n ++ " asks: " ++ userQuery) ∧
        (jsStr userName = none →
          (MemoryService.getEnhancedContext fmtSim fmtTime env ms userQuery channelId
            userId userName).1 = userQuery))) := by
  constructor
  · intro e h1 h2
    simp only [MemoryService.getEnhancedContext, tryInit_eq_error h1 h2]
  · intro hinit
    have htry := tryInit_eq_ok hinit
    rcases hs : MemoryService.searchMemories env { ms with isReady := true } userQuery
        channelId userId env.cfg.maxMemoryResults with ⟨mems, ms2⟩
    constructor
    · intro hctx
      simp only [hs] at hctx
      simp only [MemoryService.getEnhancedContext, htry, hs]
      rw [if_pos hctx]
    · intro hmems
      simp only [hs] at hmems
      subst hmems
      have hctx : ¬ (MemoryService.formatMemoriesForLLM fmtSim fmtTime
          ([] : List MemorySearchResult) ≠ "") := by
        simp [MemoryService.formatMemoriesForLLM]
      constructor
      · intro n hn
        simp only [MemoryService.getEnhancedContext, htry, hs]
        rw [if_neg hctx, hn]
      · intro hn
        simp only [MemoryService.getEnhancedContext, htry, hs]
        rw [if_neg hctx, hn]

/-- Witness for C7 at a concrete input: when initialization fails,
the query comes back unchanged. -/
theorem getEnhancedContext_cases_witness :
    (MemoryService.getEnhancedContext fmtSim0 fmtTime0 envFailInit msEmpty
      "where is the deploy script" none none none).1 = "where is the deploy script" :=
  (getEnhancedContext_cases fmtSim0 fmtTime0 envFailInit msEmpty
    "where is the deploy script" none none none).1 "connection refused" rfl rfl

/-! Metadata handling in the orchestrator store path. -/

theorem lookup_filter_ne (l : List (String × String)) (k : String) :
    (l.filter (fun kv => kv.1 ≠ k)).lookup k = none := by
  induction l with
  | nil => rfl
  | cons kv l ih =>
    by_cases h : kv.1 = k
    · simpa [List.filter_cons, h] using ih
    · simpa [List.filter_cons, h, List.lookup_cons, Ne.symm h] using ih

/-- C10 counterexample.  Calling the orchestrator store path with a
metadata mapping whose `userName` value is the empty string (a falsy
value) persists a record with NO `userName` field — the value is not
promoted, because the spread `...(userName && ...)` drops falsy
values. -/
theorem storeMemory_empty_userName_counterexample :
    ((MemoryService.storeMemory envOk msReady "u" "b" none none
        (some [("userName", "")])).1.map (fun e => e.userName)) = Except.ok none ∧
      (some [("userName", "")] : Option (List (String × String))).bind
        (fun m => m.lookup "userName") = some "" := by
  constructor
  · rfl
  · rfl

/-- C10 amended.  With the service ready and the embedding available,
the orchestrator store path persists the entry built by
`buildMemoryEntry`, in which a truthy (non-empty) `userName` metadata
value is promoted to the `userName` field while an empty-string value
is dropped; the remaining metadata never contains a `userName` key,
and the metadata field is omitted entirely when no other key
remains. -/
theorem storeMemory_metadata_userName (env : MemoryService.Env)
    (ms : MemoryService.MemState) (userInput botResponse : String)
    (channelId userId : Option String) (metadata : Option (List (String × String)))
    (emb : List ℝ) (hready : ms.isReady = true)
    (hemb : env.embedOutcome userInput = Except.ok emb) :
    (MemoryService.storeMemory env ms userInput botResponse channelId userId
        metadata).1 =
      Except.ok { MemoryService.buildMemoryEntry env.now userInput botResponse emb
        channelId userId metadata with id := some ms.store.nextId } ∧
    (∀ v, metadata.bind (fun m => m.lookup "userName") = some v → v ≠ "" →
      (MemoryService.buildMemoryEntry env.now userInput botResponse emb channelId userId
        metadata).userName = some v) ∧
    (metadata.bind (fun m => m.lookup "userName") = some "" →
      (MemoryService.buildMemoryEntry env.now userInput botResponse emb channelId userId
        metadata).userName = none) ∧
    ((MemoryService.buildMemoryEntry env.now userInput botResponse emb channelId userId
        metadata).metadata.getD []).lookup "userName" = none ∧
    ((metadata.getD []).filter (fun kv => kv.1 ≠ "userName") = [] →
      (MemoryService.buildMemoryEntry env.now userInput botResponse emb channelId userId
        metadata).metadata = none) := by
  refine ⟨?_, ?_, ?_, ?_, ?_⟩
  · simp only [MemoryService.storeMemory, tryInit_eq_ok (Or.inl hready), hemb,
      VectorStore.storeMemory]
  · intro v hv hne
    simp only [MemoryService.buildMemoryEntry, hv]
    simp [jsStr, hne]
  · intro hv
    simp only [MemoryService.buildMemoryEntry, hv]
    simp [jsStr]
  · simp only [MemoryService.buildMemoryEntry]
    split
    · exact lookup_filter_ne _ "userName"
    · rfl
  · intro hrem
    simp only [MemoryService.buildMemoryEntry, hrem]
    simp

/-- Witness for the amended C10 at a concrete input: a non-empty
`userName` value is promoted to the `userName` field. -/
theorem storeMemory_metadata_userName_witness :
    (MemoryService.buildMemoryEntry envOk.now "u" "b" [1] none none
      (some [("userName", "Ann"), ("k", "v")])).userName = some "Ann" :=
  (storeMemory_metadata_userName envOk msReady "u" "b" none none
    (some [("userName", "Ann"), ("k", "v")]) [1] rfl rfl).2.1 "Ann" rfl (by decide)

end AidenBot
